import Mathlib

/-!
Verification of the Signal_browser channel-extraction and time-series
normalization layer, shallowly embedded from the Python sources in
`src/signal_browser/`.  Instants are modelled as integer nanoseconds,
float sample values as rationals, pandas frames as lists, and fallible
code as `Option`/`Except`.  Unbounded recursion (the PLC segment-chain
follower) is modelled with explicit fuel, `none` standing for a read
that has not terminated within the given fuel.
-/

namespace SignalBrowser

/-- An absolute point in time, in integer nanoseconds since the Unix epoch. -/
abbrev Instant := Int

/-- Modelled from the spec: `TimeConversionUtils.json_to_datetime` lives in
`src/signal_browser/utils.py`, which is absent from the sources; spec 4.1
gives `jsonTimestampToInstant(sec, nanosec) = Instant.fromUnixSeconds(sec)
+ nanosec` nanoseconds. -/
def json_to_datetime (sec nanosec : Int) : Instant :=
  sec * 1000000000 + nanosec

/-- One row produced by the `get_channel_trace` SQL query of
`rtilog_reader.py` (before the WHERE filter): the extraction
`json_extract(rti_json_sample, '$.timestamp')` already parsed into its
`{sec, nanosec}` pair (`none` for SQL NULL), the extracted channel value
(`none` for SQL NULL), and the `SampleInfo_reception_timestamp` column,
converted by `parse_dates` from integer nanoseconds to an instant. -/
structure RtiRawRow where
  jsonTs : Option (Int × Int)
  value : Option ℚ
  recep : Instant
deriving DecidableEq

/-- One row of the pandas frame returned by `RTILogReader.get_channel_trace`:
the (possibly already converted) JSON-timestamp column, the channel value,
and the reception-timestamp column. -/
structure FrameRow where
  jsonIdx : Option Instant
  val : ℚ
  recep : Instant
deriving DecidableEq

/-- Boolean comparison on optional instants, mirroring how pandas orders a
time index when sorting: missing values (NaT) are placed last
(`sort_index` uses `na_position='last'`). -/
def instantLeb : Option Instant → Option Instant → Bool
  | _, none => true
  | none, some _ => false
  | some x, some y => decide (x ≤ y)

/-- Order on (index, value) series entries by index, used to model
`DataFrame.sort_index`. -/
def entryLE (a b : Option Instant × ℚ) : Prop :=
  instantLeb a.1 b.1 = true

instance : DecidableRel entryLE :=
  fun a b => inferInstanceAs (Decidable (instantLeb a.1 b.1 = true))

instance : IsTotal (Option Instant × ℚ) entryLE := by
  constructor
  intro a b
  rcases a with ⟨_ | x, _⟩ <;> rcases b with ⟨_ | y, _⟩ <;>
    simp [entryLE, instantLeb]
  exact Int.le_total x y

instance : IsTrans (Option Instant × ℚ) entryLE := by
  constructor
  intro a b c
  rcases a with ⟨_ | x, _⟩ <;> rcases b with ⟨_ | y, _⟩ <;>
    rcases c with ⟨_ | z, _⟩ <;> simp [entryLE, instantLeb]
  exact fun h1 h2 => Int.le_trans h1 h2

/-- The two exceptions the relational extraction pipeline can raise:
`TypeError` from `json.loads(None)` on a NULL timestamp entry, and
`AttributeError` from calling `sort_index` on the scalar that
`df.squeeze()` yields for a one-row frame. -/
inductive PandasError where
  | typeError
  | attributeError
deriving DecidableEq

/-- Embedding of the column of `df[col].apply(json.loads).apply(
TimeConversionUtils.json_to_datetime)` in `get_channel_trace`
(rtilog_reader.py lines 52-58): applying `json.loads` to a SQL NULL
(`None` in the frame) raises `TypeError`, modelled as `Except.error`. -/
def applyJsonLoads : List RtiRawRow → Except PandasError (List FrameRow)
  | [] => Except.ok []
  | r :: rest =>
    match r.jsonTs with
    | none => Except.error PandasError.typeError
    | some ts =>
      match applyJsonLoads rest with
      | Except.ok out =>
          Except.ok ({ jsonIdx := some (json_to_datetime ts.1 ts.2),
                       val := r.value.getD 0, recep := r.recep } :: out)
      | Except.error e => Except.error e

/-- Embedding of `RTILogReader.get_channel_trace` (rtilog_reader.py lines
44-60).  The SQL WHERE clause keeps only rows whose extracted channel
value is non-NULL; when the JSON-timestamp column is not entirely NULL
(`not df[df.columns[0]].isna().all()`), every entry of that column is fed
through `json.loads` and the conversion to an instant. -/
def get_channel_trace (rows : List RtiRawRow) : Except PandasError (List FrameRow) :=
  let df := rows.filter (fun r => r.value.isSome)
  if df.any (fun r => r.jsonTs.isSome) then
    applyJsonLoads df
  else
    Except.ok (df.map (fun r =>
      { jsonIdx := none, val := r.value.getD 0, recep := r.recep }))

/-- Embedding of `MultiThreaded_RTI_Reader._dat_select_index`
(rtilog_reader.py lines 126-135): when the JSON-timestamp column is not
entirely NULL, the reception column is dropped and the JSON column
becomes the index, otherwise the JSON column is dropped and the
reception column becomes the index (`indexed`, which always has exactly
one data column).  `df.squeeze()` then collapses a one-row frame to a
scalar, on which `sort_index` raises `AttributeError`; with more or
fewer rows the squeeze yields a series, which is sorted by index.
pandas' stable sort is modelled by `List.insertionSort`. -/
def dat_select_index (df : List FrameRow) :
    Except PandasError (List (Option Instant × ℚ)) :=
  let indexed :=
    if df.any (fun r => r.jsonIdx.isSome) then
      df.map (fun r => (r.jsonIdx, r.val))
    else
      df.map (fun r => (some r.recep, r.val))
  if indexed.length = 1 then Except.error PandasError.attributeError
  else Except.ok (List.insertionSort entryLE indexed)

/-- Embedding of the body of `MultiThreaded_RTI_Reader.run`
(rtilog_reader.py lines 107-124) after all workers have completed:
`df_list` holds the per-file frames in the order the workers appended
them (completion order); zero frames give the empty series
`pd.Series()` without touching `_dat_select_index`, one frame is
indexed directly, several frames are concatenated (`pd.concat`) and
then indexed; an exception from `_dat_select_index` propagates. -/
def rtiRun (df_list : List (List FrameRow)) :
    Except PandasError (List (Option Instant × ℚ)) :=
  match df_list with
  | [] => Except.ok []
  | [df] => dat_select_index df
  | dfs => dat_select_index dfs.flatten

/-- Composition `get_channel_trace` then `_dat_select_index` for a single
result set, the `readChannelTrace` operation of spec 4.3; an exception
from either stage propagates. -/
def readChannelTrace (rows : List RtiRawRow) :
    Except PandasError (List (Option Instant × ℚ)) :=
  match get_channel_trace rows with
  | Except.ok df => dat_select_index df
  | Except.error e => Except.error e

/-- Embedding of `MainWindow._dat_is_boolean` (dropdowns.py lines
578-589), the if/elif chain classifying a series as boolean. -/
def dat_is_boolean (df : List ℚ) (item_name : String) : Bool :=
  if df.all (fun v => decide (v = 0) || decide (v = 1)) then true
  else if df.all (fun v => decide (v = 1)) then true
  else if df.all (fun v => decide (v = 0)) then true
  else if item_name = "novosControl" then true
  else false

/-- The row tuple `cur.fetchone()` hands back for the query
`SELECT json_extract(rti_json_sample, '$') FROM t`: a 1-tuple holding the
extraction result of the first row (`none` models SQL NULL). -/
def fetchedTuple (r : Option String) : List (Option String) :=
  [r]

/-- Embedding of `RTILogReader._validate_rti_json_sample` (rtilog_reader.py
lines 62-71): `rows` is the per-row result of the root JSON-path
extraction; `cur.fetchone()` is `rows.head?`, and the code tests
`channel is not None and len(channel) > 0` on the fetched row tuple. -/
def validate_rti_json_sample (rows : List (Option String)) : Bool :=
  match rows.head? with
  | some row => decide ((fetchedTuple row).length > 0)
  | none => false

/-- The spec's reading of `validateHasSample`: some row's root extraction
is non-null and non-empty. -/
def specValidateHasSample (rows : List (Option String)) : Prop :=
  ∃ r ∈ rows, r ≠ none ∧ r ≠ some ""

instance (rows : List (Option String)) : Decidable (specValidateHasSample rows) := by
  unfold specValidateHasSample
  infer_instance

/-- A JSON value as decoded by Python's `json.loads`: strings, integers,
floats (modelled as rationals), the JSON literals `true`/`false`, and
`null`. -/
inductive JsonVal where
  | jstr (s : String)
  | jint (n : Int)
  | jfloat (q : ℚ)
  | jbool (b : Bool)
  | jnull
deriving DecidableEq

/-- The Python runtime type of a decoded JSON value, as produced by
`type(value)`. -/
inductive PyType where
  | str
  | int
  | float
  | bool
  | nonetype
deriving DecidableEq

/-- `type(value)` on a value decoded by `json.loads`. -/
def pyType : JsonVal → PyType
  | .jstr _ => .str
  | .jint _ => .int
  | .jfloat _ => .float
  | .jbool _ => .bool
  | .jnull => .nonetype

/-- Embedding of `RTILogReader.get_channels_from_rti_json_sample`
(rtilog_reader.py lines 30-41): `firstRow` is the decoded JSON object of
the first fetched row (`none` when the table is empty); each key is
mapped to the Python runtime type of its value. -/
def get_channels_from_rti_json_sample
    (firstRow : Option (List (String × JsonVal))) : List (String × PyType) :=
  match firstRow with
  | some channels => channels.map (fun kv => (kv.1, pyType kv.2))
  | none => []

/-- Python's `str(value)` for decoded JSON scalars, needed only to state
the spec's string-form boolean heuristic. -/
def pyStr : JsonVal → String
  | .jstr s => s
  | .jint n => toString n
  | .jfloat q => toString q
  | .jbool b => if b then "True" else "False"
  | .jnull => "None"

/-- ASCII lowercasing of a string, the `.lower()` of the spec's
case-insensitive comparison. -/
def lowerAscii (s : String) : String :=
  String.mk (s.toList.map Char.toLower)

/-- The typing rule the spec claims for `inferChannels`: boolean when the
value's string form case-insensitively equals "true"/"false", otherwise
the native JSON type. -/
def specChannelType (v : JsonVal) : PyType :=
  if lowerAscii (pyStr v) = "true" ∨ lowerAscii (pyStr v) = "false" then
    PyType.bool
  else
    pyType v

/-- The sample row of the spec's `inferChannels` scenario. -/
def c3SampleRow : List (String × JsonVal) :=
  [("a", JsonVal.jstr "true"), ("b", JsonVal.jfloat (Rat.mk' 7 2)),
   ("c", JsonVal.jstr "hello")]

/-- Association-list read of Python's dict `group_names` in
`TDMLogReader.get_groups`. -/
def lookupCount : List (String × Nat) → String → Option Nat
  | [], _ => none
  | (k, v) :: rest, key => if k = key then some v else lookupCount rest key

/-- Association-list write of Python's dict `group_names` in
`TDMLogReader.get_groups`. -/
def setCount : List (String × Nat) → String → Nat → List (String × Nat)
  | [], key, n => [(key, n)]
  | (k, v) :: rest, key, n =>
    if k = key then (k, n) :: rest else (k, v) :: setCount rest key n

/-- Loop body of `TDMLogReader.get_groups` (tdmlog_reader.py lines 12-27)
over the file-order list of group names: a first occurrence is emitted
unlabeled and recorded with count 0; a repeated name bumps its count `c`
and is emitted as `name [c]`. -/
def get_groups_aux : List String → List (String × Nat) → List String
  | [], _ => []
  | name :: rest, seen =>
    match lookupCount seen name with
    | none => name :: get_groups_aux rest (setCount seen name 0)
    | some c =>
        (name ++ " [" ++ toString (c + 1) ++ "]") ::
          get_groups_aux rest (setCount seen name (c + 1))

/-- Embedding of `TDMLogReader.get_groups` applied to the group names of a
TDM file in file order (the `tdm_loader` container is opaque; only the
name sequence matters). -/
def get_groups (names : List String) : List String :=
  get_groups_aux names []

/-- Python's `\s` character class (`re` with the default flags). -/
def pyIsSpace (c : Char) : Bool :=
  c = ' ' || c = '\t' || c = '\n' || c = '\r' || c = '\x0b' || c = '\x0c'

/-- Numeric value of a digit run, Python's `int(group(2))`. -/
def digitsToNat (ds : List Char) : Nat :=
  ds.foldl (fun acc c => acc * 10 + (c.toNat - 48)) 0

/-- Attempt to match `\s*\[(\d+)\]` at the head of `l`, the tail of the
pattern `(.*?)\s*\[(\d+)\]` used by `TDMLogReader.get_channels`,
`get_channel_description` and `get_data`: greedy `\s*` can only stop at a
non-space, which must then be `[`, followed by a non-empty greedy digit
run and `]` (the overall match need not reach the end of the string). -/
def matchBracketSuffix (l : List Char) : Option Nat :=
  match l.dropWhile pyIsSpace with
  | '[' :: rest =>
    match rest.takeWhile Char.isDigit, rest.dropWhile Char.isDigit with
    | [], _ => none
    | ds, ']' :: _ => some (digitsToNat ds)
    | _, _ => none
  | _ => none

/-- `re.search` of `(.*?)\s*\[(\d+)\]`: scan left to right for the first
position where the bracket tail matches; `acc` holds the reversed lazy
prefix `(.*?)`. -/
def searchGroupPattern : List Char → List Char → Option (List Char × Nat)
  | _, [] => none
  | acc, c :: cs =>
    match matchBracketSuffix (c :: cs) with
    | some n => some (acc.reverse, n)
    | none => searchGroupPattern (c :: acc) cs

/-- Embedding of the group-label parsing shared by
`TDMLogReader.get_channels` (tdmlog_reader.py lines 33-39),
`get_channel_description` and `get_data` (lines 61-67): on a regex match
the base name is capture 1 and the occurrence is `int` of capture 2,
otherwise the label itself with occurrence 0. -/
def parse_group (group : String) : String × Nat :=
  match searchGroupPattern [] group.toList with
  | some (base, occurrence) => (String.mk base, occurrence)
  | none => (group, 0)

/-- Positions, in file order, of the groups carrying a given name. -/
def occurrenceIndices (names : List String) (base : String) : List Nat :=
  (List.range names.length).filter (fun i => names.getD i "" = base)

/-- Modelled from the spec: the `occurrence` keyword of the external
`tdm_loader` library's group lookups (`_channels_xml`, `channel`,
`channel_name`) selects the occurrence-th (0-based) channel group
bearing the given name, in file order (spec 4.2); the library itself is
outside the sources. -/
def resolve_group (names : List String) (base : String)
    (occurrence : Nat) : Option Nat :=
  (occurrenceIndices names base)[occurrence]?

/-- One decoded PLC log segment, the result of `PlcLogReader.proccess_file`
for `use_timestamp=False` (plclog_reader.py lines 51-88): the frame of
(instant, value) samples built from the OLE anchor plus the per-sample
offsets, and the two embedded filenames.  The binary decoding itself
relies on `read_struct_from_binary` and `TimeConversionUtils` from the
absent `utils.py` plus numpy, so the decoded triple is taken as given. -/
structure PlcSegment where
  df : List (Instant × ℚ)
  prevName : String
  nextName : String
deriving DecidableEq

/-- Worker for `df[~df.index.duplicated(keep='first')]`: `seen` holds the
index values already emitted. -/
def dropDupKeepFirstAux : List (Instant × ℚ) → List Instant → List (Instant × ℚ)
  | [], _ => []
  | e :: rest, seen =>
    if e.1 ∈ seen then dropDupKeepFirstAux rest seen
    else e :: dropDupKeepFirstAux rest (e.1 :: seen)

/-- pandas `df[~df.index.duplicated(keep='first')]`: keep the first
occurrence of every index value, in order. -/
def dropDupKeepFirst (df : List (Instant × ℚ)) : List (Instant × ℚ) :=
  dropDupKeepFirstAux df []

/-- Embedding of the single-file branch of `PlcLogReader.read_logfile`
(plclog_reader.py lines 31-48): `fs` maps a filename to its decoded
segment (`none` when `next_path.is_file()` is false, or when opening the
file fails); with `read_series` the chain is followed through the
embedded next filename, guarded by `prev_fileName != next_fileName`, and
each step concatenates and drops duplicate index values keeping the
first.  Python recursion is unbounded; fuel `0` returning `none` models
a read that never returns. -/
def read_logfile (fs : String → Option PlcSegment) (read_series : Bool) :
    Nat → String → Option (List (Instant × ℚ))
  | 0, _ => none
  | fuel + 1, file =>
    match fs file with
    | none => none
    | some seg =>
      if read_series then
        match fs seg.nextName with
        | some _ =>
          if seg.prevName ≠ seg.nextName then
            match read_logfile fs read_series fuel seg.nextName with
            | some new => some (dropDupKeepFirst (seg.df ++ new))
            | none => none
          else some seg.df
        | none => some seg.df
      else some seg.df

/-- Loop of the list branch of `PlcLogReader.read_logfile` (plclog_reader.py
lines 20-29): the accumulator starts as the empty frame and each file's
result is concatenated, dropping duplicate index values keeping the
first after every step. -/
def read_logfile_list (fs : String → Option PlcSegment) (read_series : Bool)
    (fuel : Nat) : List String → List (Instant × ℚ) →
    Option (List (Instant × ℚ))
  | [], df => some df
  | f :: rest, df =>
    match read_logfile fs read_series fuel f with
    | none => none
    | some new =>
        read_logfile_list fs read_series fuel rest (dropDupKeepFirst (df ++ new))

/-- Embedding of `PlcLogReader.read_logfile` applied to a list of files,
the PLC multi-file merge entry point. -/
def read_logfile_multi (fs : String → Option PlcSegment) (read_series : Bool)
    (fuel : Nat) (files : List String) : Option (List (Instant × ℚ)) :=
  read_logfile_list fs read_series fuel files []

/-- Segment of the self-pointing chain scenario: its embedded next filename
is its own filename "A", its embedded previous filename is a different
name. -/
def segSelfNext : PlcSegment :=
  { df := [(0, 1)], prevName := "P", nextName := "A" }

/-- Filesystem holding exactly the self-pointing segment under its own
name "A". -/
def fsSelfNext : String → Option PlcSegment :=
  fun s => if s = "A" then some segSelfNext else none

/-- Segment whose next filename "Y" exists and differs from the segment's
own filename "X" but equals its embedded previous filename. -/
def segPrevEqNext : PlcSegment :=
  { df := [(0, 5)], prevName := "Y", nextName := "Y" }

/-- The sibling segment named "Y", with data that would be appended if the
chain were followed. -/
def segY : PlcSegment :=
  { df := [(1, 6)], prevName := "", nextName := "" }

/-- Filesystem for the prev-equals-next scenario: "X" holds
`segPrevEqNext` and "Y" exists. -/
def fsPrevEqNext : String → Option PlcSegment :=
  fun s => if s = "X" then some segPrevEqNext
           else if s = "Y" then some segY else none

/-- Two chain-free PLC files whose instants are out of order across the
files: "A" holds the later instant, "B" the earlier one. -/
def fsPlcAB : String → Option PlcSegment :=
  fun s =>
    if s = "A" then some { df := [(10, 1)], prevName := "", nextName := "" }
    else if s = "B" then some { df := [(5, 2)], prevName := "", nextName := "" }
    else none

/-- Per-file frame of relational shard A: one row at instant 5 with value
1 (distinct reception timestamp 0). -/
def frameA : List FrameRow :=
  [{ jsonIdx := some 5, val := 1, recep := 0 }]

/-- Per-file frame of relational shard B: one row at the same instant 5
with value 2 (distinct reception timestamp 1). -/
def frameB : List FrameRow :=
  [{ jsonIdx := some 5, val := 2, recep := 1 }]

/-- Result set mixing a row with a JSON timestamp and a row without one,
both rows carrying a channel value. -/
def c2RowsMixed : List RtiRawRow :=
  [{ jsonTs := some (100, 0), value := some 1, recep := 7 },
   { jsonTs := none, value := some 2, recep := 8 }]

/-- Result set whose JSON timestamp is NULL in every row. -/
def c2RowsAllNull : List RtiRawRow :=
  [{ jsonTs := none, value := some 1, recep := 7 },
   { jsonTs := none, value := some 2, recep := 8 }]

/-- Result set with exactly one value-carrying row: the squeeze of the
1x1 indexed frame yields a scalar and `sort_index` raises. -/
def c2RowsSingle : List RtiRawRow :=
  [{ jsonTs := some (100, 0), value := some 1, recep := 7 }]

/-- The per-row-fallback series the claim expects `readChannelTrace` to
produce: whenever at least one row carries a JSON timestamp, each row is
indexed by its own JSON timestamp when present and by its reception
timestamp otherwise; with no JSON timestamp anywhere, every row is
indexed by its reception timestamp. -/
def c2SpecSeries (rows : List RtiRawRow) : List (Option Instant × ℚ) :=
  let df := rows.filter (fun r => r.value.isSome)
  if df.any (fun r => r.jsonTs.isSome) then
    List.insertionSort entryLE (df.map (fun r =>
      (some ((r.jsonTs.map (fun ts => json_to_datetime ts.1 ts.2)).getD r.recep),
       r.value.getD 0)))
  else
    List.insertionSort entryLE (df.map (fun r => (some r.recep, r.value.getD 0)))

/-- Strict version of the series-entry order: the indices are ordered and
distinct.  Antisymmetric, which the weak order `entryLE` is not (two
entries may share an index with different values). -/
def entryLT (a b : Option Instant × ℚ) : Prop :=
  entryLE a b ∧ a.1 ≠ b.1

/-- Relational shard frame with the unique instant 1. -/
def frameD1 : List FrameRow :=
  [{ jsonIdx := some 1, val := 10, recep := 0 }]

/-- Relational shard frame with the unique instant 2. -/
def frameD2 : List FrameRow :=
  [{ jsonIdx := some 2, val := 20, recep := 1 }]

instance : IsAntisymm (Option Instant × ℚ) entryLT := by
  constructor
  intro a b hab hba
  obtain ⟨h1, h2⟩ := hab
  obtain ⟨h3, _⟩ := hba
  exfalso
  rcases a with ⟨_ | x, _⟩ <;> rcases b with ⟨_ | y, _⟩ <;>
    simp [entryLE, instantLeb] at h1 h2 h3
  exact h2 (le_antisymm h1 h3)

/-! ## Theorems -/

/-- C3 counterexample: on the spec's own scenario row
`{"a": "true", "b": 3.5, "c": "hello"}`, the code
(`get_channels_from_rti_json_sample`) types `a` as `str` by its native
JSON type, while the claimed string-form heuristic would type it
`boolean`; the two results differ. -/
theorem c3_counterexample :
    get_channels_from_rti_json_sample (some c3SampleRow) =
      [("a", PyType.str), ("b", PyType.float), ("c", PyType.str)]
    ∧ c3SampleRow.map (fun kv => (kv.1, specChannelType kv.2)) =
      [("a", PyType.bool), ("b", PyType.float), ("c", PyType.str)]
    ∧ get_channels_from_rti_json_sample (some c3SampleRow) ≠
      c3SampleRow.map (fun kv => (kv.1, specChannelType kv.2)) := by
  refine ⟨by decide, by decide, by decide⟩

/-- C3 (amended): `get_channels_from_rti_json_sample` types every key by
the native JSON type of its value alone (`type(value)` after
`json.loads`); no string-form boolean coercion is applied, so the
sample row `{"a": "true", "b": 3.5, "c": "hello"}` yields
`{a: string, b: float, c: string}`. -/
theorem c3_amended :
    get_channels_from_rti_json_sample (some c3SampleRow) =
      [("a", PyType.str), ("b", PyType.float), ("c", PyType.str)]
    ∧ ∀ row, get_channels_from_rti_json_sample (some row) =
        row.map (fun kv => (kv.1, pyType kv.2)) := by
  exact ⟨by decide, fun row => rfl⟩

/-- C6: `get_groups` on file-order group names `["G", "G", "H"]` returns
`["G", "G [1]", "H"]` (first occurrence unlabeled, duplicate suffixed
with the 1-based prior-duplicate count, file-native order), and the
label `"G [1]"` parses back to base `"G"` with occurrence 1, which
resolves to index 1, the second physical occurrence of group `G`. -/
theorem c6_group_disambiguation_roundtrip :
    get_groups ["G", "G", "H"] = ["G", "G [1]", "H"]
    ∧ parse_group "G [1]" = ("G", 1)
    ∧ resolve_group ["G", "G", "H"] "G" 1 = some 1 := by
  refine ⟨by decide, by decide, by decide⟩

/-- C7: `dat_is_boolean` returns true exactly when every value of the
series lies in {0, 1} (which subsumes the all-zero and all-one cases of
the code's elif chain) or the channel name is the named exception
"novosControl". -/
theorem c7_dat_is_boolean_characterization (df : List ℚ) (item_name : String) :
    dat_is_boolean df item_name = true ↔
      (∀ v ∈ df, v = 0 ∨ v = 1) ∨ item_name = "novosControl" := by
  unfold dat_is_boolean
  split_ifs with h1 h2 h3 h4 <;>
    simp_all [List.all_eq_true]
  · exact Or.inl (fun v hv => Or.inr (h2 v hv))
  · exact Or.inl (fun v hv => Or.inl (h3 v hv))

/-- C8 counterexample: a table whose single row holds a NULL blob — the
root extraction is NULL for every row, so the claim requires exclusion —
is still validated by `validate_rti_json_sample`, because the code only
tests the fetched row tuple, never the extracted value. -/
theorem c8_counterexample :
    validate_rti_json_sample [none] = true
    ∧ ¬ specValidateHasSample [none] := by
  refine ⟨by decide, by decide⟩

/-- C8 (amended): `validate_rti_json_sample` returns true if and only if
the table contains at least one row; the extraction result itself is
never inspected (the fetched 1-tuple always has length 1), so tables
whose rows all hold NULL blobs are still included in discovery. -/
theorem c8_amended (rows : List (Option String)) :
    validate_rti_json_sample rows = true ↔ rows ≠ [] := by
  cases rows <;> simp [validate_rti_json_sample, fetchedTuple]

/-- C9: when the multi-file relational merge completes with zero collected
per-file frames, `rtiRun` takes the `pd.Series()` branch and returns
the empty series without raising (`_dat_select_index`, the only
raising step, is never reached); the zero-file edge case is total. -/
theorem c9_empty_merge_returns_empty_series :
    rtiRun [] = Except.ok [] := rfl

/-- C1 counterexample: merging the two relational shards `frameA` and
`frameB`, which share instant 5, `rtiRun` returns both entries — the
merged series contains two entries with the same instant, so it is
neither duplicate-free nor strictly sorted; and the PLC list merge of
files "A" and "B" returns their concatenation unsorted (index 10 before
index 5). -/
theorem c1_counterexample :
    rtiRun [frameA, frameB] = Except.ok [(some 5, 1), (some 5, 2)]
    ∧ ¬ (([(some 5, 1), (some 5, 2)] : List (Option Instant × ℚ)).map
          Prod.fst).Nodup
    ∧ read_logfile_multi fsPlcAB false 5 ["A", "B"] = some [(10, 1), (5, 2)]
    ∧ ¬ List.Sorted (fun a b : Instant => a < b)
        (([(10, 1), (5, 2)] : List (Instant × ℚ)).map Prod.fst) := by
  refine ⟨by rfl, by decide, by decide, by decide⟩

/-- Feeding a column containing a NULL through `json.loads` raises. -/
theorem applyJsonLoads_error (l : List RtiRawRow)
    (h : ∃ r ∈ l, r.jsonTs = none) :
    applyJsonLoads l = Except.error PandasError.typeError := by
  induction l with
  | nil => simp at h
  | cons r rest ih =>
    rcases h with ⟨x, hx, hnone⟩
    rcases List.mem_cons.mp hx with rfl | hxr
    · simp [applyJsonLoads, hnone]
    · cases hr : r.jsonTs with
      | none => simp [applyJsonLoads, hr]
      | some ts => simp [applyJsonLoads, hr, ih ⟨x, hxr, hnone⟩]

/-- When every row carries a JSON timestamp, the parse succeeds row by
row. -/
theorem applyJsonLoads_ok (l : List RtiRawRow)
    (h : ∀ r ∈ l, r.jsonTs.isSome = true) :
    applyJsonLoads l = Except.ok (l.map (fun r =>
      { jsonIdx := r.jsonTs.map (fun ts => json_to_datetime ts.1 ts.2),
        val := r.value.getD 0, recep := r.recep })) := by
  induction l with
  | nil => rfl
  | cons r rest ih =>
    rcases Option.isSome_iff_exists.mp (h r (by simp)) with ⟨ts, hts⟩
    simp [applyJsonLoads, hts, ih (fun x hx => h x (by simp [hx]))]

/-- C2 counterexample: on a result set where one row has a JSON timestamp
and another does not (both carrying channel values), the read raises
(`json.loads` is applied to the NULL entry) instead of producing the
claimed per-row-fallback series. -/
theorem c2_counterexample :
    readChannelTrace c2RowsMixed = Except.error PandasError.typeError
    ∧ c2SpecSeries c2RowsMixed = [(some 8, 2), (some 100000000000, 1)]
    ∧ readChannelTrace c2RowsMixed ≠ Except.ok (c2SpecSeries c2RowsMixed) := by
  have h1 : readChannelTrace c2RowsMixed = Except.error PandasError.typeError := by
    rfl
  refine ⟨h1, by decide, ?_⟩
  rw [h1]
  intro hcontra
  exact Except.noConfusion hcontra

/-- Unfolding of `_dat_select_index`: a one-row frame raises
(`squeeze` yields a scalar, `sort_index` fails); otherwise the selected
index column is sorted. -/
theorem dat_select_index_eq (df : List FrameRow) :
    dat_select_index df =
      if df.length = 1 then Except.error PandasError.attributeError
      else Except.ok (List.insertionSort entryLE
        (if df.any (fun r => r.jsonIdx.isSome) then
          df.map (fun r => (r.jsonIdx, r.val))
        else df.map (fun r => (some r.recep, r.val)))) := by
  unfold dat_select_index
  by_cases hany : df.any (fun r => r.jsonIdx.isSome) = true
  · simp [hany]
  · simp [hany]

/-- C2 (amended): the timestamp decision is per result set, with no
per-row fallback.  When the JSON timestamp column is NULL on every
(value-carrying) row, the reception column indexes all rows; when it is
non-NULL on at least one row and NULL on another, the read raises
`TypeError`; when it is non-NULL on every row, the JSON timestamps index
all rows — and in either successful branch the result set must not have
exactly one row, since a one-row frame is squeezed to a scalar and
`sort_index` then raises `AttributeError`. -/
theorem c2_rti_timestamp_policy (rows : List RtiRawRow) :
    ((∀ r ∈ rows.filter (fun r => r.value.isSome), r.jsonTs = none) →
      (rows.filter (fun r => r.value.isSome)).length ≠ 1 →
      readChannelTrace rows = Except.ok (List.insertionSort entryLE
        ((rows.filter (fun r => r.value.isSome)).map
          (fun r => (some r.recep, r.value.getD 0)))))
    ∧ ((∃ r ∈ rows.filter (fun r => r.value.isSome), r.jsonTs.isSome = true) →
      (∃ r ∈ rows.filter (fun r => r.value.isSome), r.jsonTs = none) →
      readChannelTrace rows = Except.error PandasError.typeError)
    ∧ ((∀ r ∈ rows.filter (fun r => r.value.isSome), r.jsonTs.isSome = true) →
      (rows.filter (fun r => r.value.isSome)).length ≠ 1 →
      readChannelTrace rows = Except.ok (List.insertionSort entryLE
        ((rows.filter (fun r => r.value.isSome)).map
          (fun r => (r.jsonTs.map (fun ts => json_to_datetime ts.1 ts.2),
                     r.value.getD 0)))))
    ∧ ((rows.filter (fun r => r.value.isSome)).length = 1 →
      readChannelTrace rows = Except.error PandasError.attributeError) := by
  refine ⟨?_, ?_, ?_, ?_⟩
  · intro h hlen
    have hany : (rows.filter (fun r => r.value.isSome)).any
        (fun r => r.jsonTs.isSome) = false := by
      simp only [List.any_eq_false]
      intro x hx
      simp [h x hx]
    have hany3 : ((rows.filter (fun r => r.value.isSome)).map (fun r =>
        ({ jsonIdx := none, val := r.value.getD 0, recep := r.recep } : FrameRow))).any
        (fun fr => fr.jsonIdx.isSome) = false := by
      rw [List.any_eq_false]
      intro fr hfr
      rcases List.mem_map.mp hfr with ⟨x, _, rfl⟩
      simp
    simp only [readChannelTrace, get_channel_trace, hany, Bool.false_eq_true,
      if_false, reduceIte, dat_select_index_eq, hany3, List.length_map,
      List.map_map, Function.comp_def]
    rw [if_neg hlen]
  · intro hsome hnone
    have hany : (rows.filter (fun r => r.value.isSome)).any
        (fun r => r.jsonTs.isSome) = true := by
      rcases hsome with ⟨x, hx, hxs⟩
      exact List.any_eq_true.mpr ⟨x, hx, hxs⟩
    simp [readChannelTrace, get_channel_trace, hany,
      applyJsonLoads_error _ hnone]
  · intro h hlen
    cases hdf : rows.filter (fun r => r.value.isSome) with
    | nil =>
      simp [readChannelTrace, get_channel_trace, hdf, dat_select_index_eq]
    | cons r rest =>
      have hr : r.jsonTs.isSome = true := h r (by simp [hdf])
      have hany : (rows.filter (fun r => r.value.isSome)).any
          (fun r => r.jsonTs.isSome) = true :=
        List.any_eq_true.mpr ⟨r, by simp [hdf], hr⟩
      have hok := applyJsonLoads_ok (rows.filter (fun r => r.value.isSome))
        (by rw [hdf] at h ⊢; exact h)
      have hrmem : r ∈ rows.filter (fun r => r.value.isSome) := by
        rw [hdf]; exact List.mem_cons_self r rest
      have hany2 : ((rows.filter (fun r => r.value.isSome)).map (fun r =>
          ({ jsonIdx := r.jsonTs.map (fun ts => json_to_datetime ts.1 ts.2),
             val := r.value.getD 0, recep := r.recep } : FrameRow))).any
          (fun fr => fr.jsonIdx.isSome) = true := by
        refine List.any_eq_true.mpr ⟨_, List.mem_map_of_mem _ hrmem, ?_⟩
        simpa using hr
      simp only [readChannelTrace, get_channel_trace, hany, hok,
        dat_select_index_eq, hany2, List.length_map, List.map_map,
        Function.comp_def, if_true, reduceIte]
      rw [if_neg hlen, hdf]
  · intro hlen
    obtain ⟨r, hr⟩ : ∃ r, rows.filter (fun r => r.value.isSome) = [r] := by
      cases hf : rows.filter (fun r => r.value.isSome) with
      | nil => rw [hf] at hlen; simp at hlen
      | cons a t =>
        cases t with
        | nil => exact ⟨a, rfl⟩
        | cons b t2 => rw [hf] at hlen; simp at hlen
    cases hjs : r.jsonTs with
    | none =>
      have hany : (rows.filter (fun r => r.value.isSome)).any
          (fun r => r.jsonTs.isSome) = false := by
        rw [hr]
        simp [hjs]
      simp only [readChannelTrace, get_channel_trace, hany, Bool.false_eq_true,
        if_false, reduceIte, dat_select_index_eq, List.length_map, hr]
      simp [hjs]
    | some ts =>
      have hany : (rows.filter (fun r => r.value.isSome)).any
          (fun r => r.jsonTs.isSome) = true := by
        rw [hr]
        simp [hjs]
      have hok : applyJsonLoads (rows.filter (fun r => r.value.isSome)) =
          Except.ok [{ jsonIdx := some (json_to_datetime ts.1 ts.2),
                       val := r.value.getD 0, recep := r.recep }] := by
        rw [hr]
        simp [applyJsonLoads, hjs]
      simp only [readChannelTrace, get_channel_trace, hany, if_true, reduceIte,
        hok, dat_select_index_eq]
      simp

/-- C2 witness: the amended policy instantiated on an all-NULL two-row
result set (reception timestamps index all rows), on the mixed result
set (the read raises `TypeError`), and on a one-row result set (the
read raises `AttributeError`). -/
theorem c2_policy_witness :
    readChannelTrace c2RowsAllNull = Except.ok (List.insertionSort entryLE
      ((c2RowsAllNull.filter (fun r => r.value.isSome)).map
        (fun r => (some r.recep, r.value.getD 0))))
    ∧ readChannelTrace c2RowsMixed = Except.error PandasError.typeError
    ∧ readChannelTrace c2RowsSingle = Except.error PandasError.attributeError :=
  ⟨(c2_rti_timestamp_policy c2RowsAllNull).1 (by decide) (by decide),
   (c2_rti_timestamp_policy c2RowsMixed).2.1 (by decide) (by decide),
   (c2_rti_timestamp_policy c2RowsSingle).2.2.2 (by decide)⟩

/-- C5 counterexample: shards `frameA` and `frameB` carry the same instant
5 with different values; no first-wins deduplication happens (the merged
series keeps both entries), and reversing the order in which the two
worker frames were collected (completion order) changes the merged
output. -/
theorem c5_counterexample :
    rtiRun [frameA, frameB] = Except.ok [(some 5, 1), (some 5, 2)]
    ∧ rtiRun [frameB, frameA] = Except.ok [(some 5, 2), (some 5, 1)]
    ∧ rtiRun [frameA, frameB] ≠ rtiRun [frameB, frameA] := by
  have h1 : rtiRun [frameA, frameB] = Except.ok [(some 5, 1), (some 5, 2)] := by
    rfl
  have h2 : rtiRun [frameB, frameA] = Except.ok [(some 5, 2), (some 5, 1)] := by
    rfl
  refine ⟨h1, h2, ?_⟩
  rw [h1, h2]
  intro hcontra
  exact absurd (Except.ok.inj hcontra) (by decide)

/-- The three branches of `run` collapse to indexing the concatenation of
the collected frames. -/
theorem rtiRun_eq_flatten (dfs : List (List FrameRow)) :
    rtiRun dfs = dat_select_index dfs.flatten := by
  cases dfs with
  | nil => rfl
  | cons a t =>
    cases t with
    | nil => simp [rtiRun, List.flatten]
    | cons b t2 => rfl

/-- Permuting the outer list permutes the concatenation. -/
theorem flatten_perm_of_perm {α : Type} {l1 l2 : List (List α)}
    (h : List.Perm l1 l2) : List.Perm l1.flatten l2.flatten := by
  induction h with
  | nil => rfl
  | cons x _ ih => simpa using ih.append_left x
  | swap x y l =>
    simp only [List.flatten_cons]
    rw [← List.append_assoc, ← List.append_assoc]
    exact List.perm_append_comm.append_right l.flatten
  | trans _ _ ih1 ih2 => exact ih1.trans ih2

/-- The surviving index values of a duplicate-drop are pairwise distinct
and avoid the already-seen set. -/
theorem dropDupKeepFirstAux_nodup (l : List (Instant × ℚ)) (seen : List Instant) :
    ((dropDupKeepFirstAux l seen).map Prod.fst).Nodup
    ∧ ∀ k ∈ (dropDupKeepFirstAux l seen).map Prod.fst, k ∉ seen := by
  induction l generalizing seen with
  | nil => simp [dropDupKeepFirstAux]
  | cons e rest ih =>
    by_cases hmem : e.1 ∈ seen
    · simp only [dropDupKeepFirstAux, if_pos hmem]
      exact ih seen
    · simp only [dropDupKeepFirstAux, if_neg hmem, List.map_cons]
      obtain ⟨ih1, ih2⟩ := ih (e.1 :: seen)
      refine ⟨List.nodup_cons.mpr ⟨fun hc => (ih2 _ hc) (List.mem_cons_self _ _), ih1⟩, ?_⟩
      intro k hk hkseen
      rcases List.mem_cons.mp hk with rfl | hk2
      · exact hmem hkseen
      · exact ih2 k hk2 (List.mem_cons_of_mem _ hkseen)

/-- `df[~df.index.duplicated(keep='first')]` leaves no duplicate index. -/
theorem dropDupKeepFirst_nodup (df : List (Instant × ℚ)) :
    ((dropDupKeepFirst df).map Prod.fst).Nodup :=
  (dropDupKeepFirstAux_nodup df []).1

/-- Every successful result of the PLC list-merge loop whose accumulator
has distinct index values has distinct index values. -/
theorem read_logfile_list_nodup (fs : String → Option PlcSegment)
    (read_series : Bool) (fuel : Nat) :
    ∀ (files : List String) (df out : List (Instant × ℚ)),
    (df.map Prod.fst).Nodup →
    read_logfile_list fs read_series fuel files df = some out →
    (out.map Prod.fst).Nodup := by
  intro files
  induction files with
  | nil =>
    intro df out hdf h
    obtain rfl : df = out := by simpa [read_logfile_list] using h
    exact hdf
  | cons f rest ih =>
    intro df out hdf h
    simp only [read_logfile_list] at h
    cases hr : read_logfile fs read_series fuel f with
    | none => rw [hr] at h; cases h
    | some new =>
      rw [hr] at h
      exact ih _ out (dropDupKeepFirst_nodup _) h

/-- A weakly sorted series whose index values are pairwise distinct is
strictly sorted. -/
theorem sorted_entryLT_of_sorted_nodup {l : List (Option Instant × ℚ)}
    (hs : List.Sorted entryLE l) (hn : (l.map Prod.fst).Nodup) :
    List.Sorted entryLT l :=
  hs.and (List.pairwise_map.mp hn)

/-- Stable sorting two permuted entry lists with pairwise-distinct index
values yields the same list. -/
theorem insertionSort_eq_of_perm_of_nodup
    (m m' : List (Option Instant × ℚ)) (hp : List.Perm m' m)
    (hk : (m.map Prod.fst).Nodup) :
    List.insertionSort entryLE m' = List.insertionSort entryLE m := by
  have hk' : (m'.map Prod.fst).Nodup :=
    ((hp.map Prod.fst).nodup_iff).mpr hk
  apply List.eq_of_perm_of_sorted (r := entryLT)
  · exact (List.perm_insertionSort entryLE m').trans
      (hp.trans (List.perm_insertionSort entryLE m).symm)
  · refine sorted_entryLT_of_sorted_nodup (List.sorted_insertionSort entryLE m') ?_
    exact (((List.perm_insertionSort entryLE m').map Prod.fst).nodup_iff).mpr hk'
  · refine sorted_entryLT_of_sorted_nodup (List.sorted_insertionSort entryLE m) ?_
    exact (((List.perm_insertionSort entryLE m).map Prod.fst).nodup_iff).mpr hk

/-- Indexing and sorting is invariant under permuting the concatenated
rows, provided all JSON timestamps are pairwise distinct and all
reception timestamps are pairwise distinct; the raise on a one-row
frame is also permutation-invariant, since permuting preserves the row
count. -/
theorem dat_select_index_perm (l l' : List FrameRow) (h : List.Perm l' l)
    (hnj : (l.map FrameRow.jsonIdx).Nodup)
    (hnr : (l.map FrameRow.recep).Nodup) :
    dat_select_index l' = dat_select_index l := by
  have hany : (l'.any fun r => r.jsonIdx.isSome) = (l.any fun r => r.jsonIdx.isSome) := by
    rw [Bool.eq_iff_iff, List.any_eq_true, List.any_eq_true]
    constructor
    · rintro ⟨x, hx, hpx⟩; exact ⟨x, h.mem_iff.mp hx, hpx⟩
    · rintro ⟨x, hx, hpx⟩; exact ⟨x, h.mem_iff.mpr hx, hpx⟩
  have hlen : l'.length = l.length := h.length_eq
  rw [dat_select_index_eq, dat_select_index_eq, hany, hlen]
  by_cases h1 : l.length = 1
  · rw [if_pos h1, if_pos h1]
  · rw [if_neg h1, if_neg h1]
    by_cases hc : (l.any fun r => r.jsonIdx.isSome) = true
    · rw [if_pos hc, if_pos hc]
      congr 1
      apply insertionSort_eq_of_perm_of_nodup _ _ (h.map _)
      have : (l.map (fun r => (r.jsonIdx, r.val))).map Prod.fst
          = l.map FrameRow.jsonIdx := by
        simp [List.map_map, Function.comp_def]
      rw [this]
      exact hnj
    · rw [if_neg hc, if_neg hc]
      congr 1
      apply insertionSort_eq_of_perm_of_nodup _ _ (h.map _)
      have : (l.map (fun r => ((some r.recep : Option Instant), r.val))).map Prod.fst
          = (l.map FrameRow.recep).map some := by
        simp [List.map_map, Function.comp_def]
      rw [this]
      exact hnr.map (Option.some_injective Instant)

/-- C1 (amended): whenever the relational merge returns a series (it
raises instead when the merged frame has exactly one row), that series
is sorted ascending by instant but is not deduplicated, so duplicate
instants may remain; the PLC list merge (`read_logfile` on a file list)
never returns duplicate instants (first-wins drop after each
concatenation) but does not re-sort. -/
theorem c1_merge_invariants :
    (∀ dfs out, rtiRun dfs = Except.ok out → List.Sorted entryLE out)
    ∧ (∀ (fs : String → Option PlcSegment) (read_series : Bool) (fuel : Nat)
        (files : List String) (out : List (Instant × ℚ)),
        read_logfile_multi fs read_series fuel files = some out →
        (out.map Prod.fst).Nodup) := by
  constructor
  · intro dfs out h
    rw [rtiRun_eq_flatten, dat_select_index_eq] at h
    split at h
    · exact Except.noConfusion h
    · obtain rfl := Except.ok.inj h
      exact List.sorted_insertionSort entryLE _
  · intro fs read_series fuel files out h
    exact read_logfile_list_nodup fs read_series fuel files [] out (by simp) h

/-- C1 witness: the merge invariants instantiated on the concrete shard
pair and the concrete PLC file list. -/
theorem c1_merge_invariants_witness :
    List.Sorted entryLE [(some 5, 1), (some 5, 2)]
    ∧ (([(10, 1), (5, 2)] : List (Instant × ℚ)).map Prod.fst).Nodup :=
  ⟨c1_merge_invariants.1 [frameA, frameB] [(some 5, 1), (some 5, 2)] (by rfl),
   c1_merge_invariants.2 fsPlcAB false 5 ["A", "B"] _ (by decide)⟩

/-- C5 (amended): the relational merge keeps every entry of a duplicate
instant in worker-completion order, so completion order can change the
output (see the counterexample); completion order cannot change the
outcome — returned series and raise alike — when no timestamp repeats
across the collected frames. -/
theorem c5_completion_order_independence
    (dfs dfs' : List (List FrameRow)) (hperm : List.Perm dfs' dfs)
    (hnj : (dfs.flatten.map FrameRow.jsonIdx).Nodup)
    (hnr : (dfs.flatten.map FrameRow.recep).Nodup) :
    rtiRun dfs' = rtiRun dfs := by
  rw [rtiRun_eq_flatten, rtiRun_eq_flatten]
  exact dat_select_index_perm _ _ (flatten_perm_of_perm hperm) hnj hnr

/-- C5 witness: swapping the completion order of two duplicate-free shards
leaves the merged output unchanged. -/
theorem c5_completion_order_independence_witness :
    rtiRun [frameD2, frameD1] = rtiRun [frameD1, frameD2] :=
  c5_completion_order_independence [frameD1, frameD2] [frameD2, frameD1]
    (List.Perm.swap frameD1 frameD2 []) (by decide) (by decide)

/-- The chain read of the self-pointing segment never returns: the guard
compares the previous and next embedded filenames, which differ, so the
recursion re-reads file "A" forever. -/
theorem read_logfile_selfNext_diverges :
    ∀ fuel, read_logfile fsSelfNext true fuel "A" = none := by
  intro fuel
  induction fuel with
  | zero => rfl
  | succ n ih => simp [read_logfile, fsSelfNext, segSelfNext, ih]

/-- C4 counterexample: for the segment whose embedded next filename is its
own filename "A" (and whose prev differs), the chain read does not stop
after the segment — it never returns at all; and for the segment "X"
whose next file "Y" exists and differs from the current file name but
equals the embedded prev, the chain read stops even though the claim
says chasing continues. -/
theorem c4_counterexample :
    read_logfile fsSelfNext true 5 "A" = none
    ∧ read_logfile fsPrevEqNext true 5 "X" = some segPrevEqNext.df
    ∧ fsPrevEqNext segPrevEqNext.nextName = some segY
    ∧ segPrevEqNext.nextName ≠ "X" :=
  ⟨read_logfile_selfNext_diverges 5, by decide, by decide, by decide⟩

/-- C4 (amended): the chain guard compares the embedded previous and next
filenames, not the current file name: the chain stops when the next
file does not exist or when the embedded prev equals the embedded next,
and it recurses into the next file exactly when that file exists and
prev differs from next. -/
theorem c4_chain_guard (fs : String → Option PlcSegment) (fuel : Nat)
    (file : String) (seg : PlcSegment) (hfile : fs file = some seg) :
    (fs seg.nextName = none → read_logfile fs true (fuel + 1) file = some seg.df)
    ∧ (seg.prevName = seg.nextName →
        read_logfile fs true (fuel + 1) file = some seg.df)
    ∧ (∀ s', fs seg.nextName = some s' → seg.prevName ≠ seg.nextName →
        read_logfile fs true (fuel + 1) file =
          match read_logfile fs true fuel seg.nextName with
          | some new => some (dropDupKeepFirst (seg.df ++ new))
          | none => none) := by
  refine ⟨?_, ?_, ?_⟩
  · intro h
    simp [read_logfile, hfile, h]
  · intro h
    cases hnext : fs seg.nextName with
    | none => simp [read_logfile, hfile, hnext]
    | some s' => simp [read_logfile, hfile, hnext, h]
  · intro s' h hne
    simp [read_logfile, hfile, h, hne]

/-- C4 witness: the guard theorem instantiated on the prev-equals-next
segment: its chain stops with only its own data. -/
theorem c4_chain_guard_witness :
    read_logfile fsPrevEqNext true 5 "X" = some segPrevEqNext.df :=
  (c4_chain_guard fsPrevEqNext 4 "X" segPrevEqNext (by decide)).2.1 (by decide)

/-- Structure eta: rebuilding a string from its character list is the
identity. -/
theorem string_mk_toList (s : String) : String.mk s.toList = s := rfl

/-- A greedy digit run stops exactly at the closing bracket. -/
theorem takeWhile_digits_append (d : List Char)
    (hdig : ∀ c ∈ d, c.isDigit = true) :
    (d ++ [']']).takeWhile Char.isDigit = d
    ∧ (d ++ [']']).dropWhile Char.isDigit = [']'] := by
  induction d with
  | nil => exact ⟨by decide, by decide⟩
  | cons c cs ih =>
    have hc : c.isDigit = true := hdig c (by simp)
    obtain ⟨ih1, ih2⟩ := ih (fun x hx => hdig x (by simp [hx]))
    constructor
    · simp [List.takeWhile_cons, hc, ih1]
    · simp [List.dropWhile_cons, hc, ih2]

/-- At the junction between the base name and the appended bracket tail,
the bracket pattern matches and captures the digit run. -/
theorem matchBracketSuffix_junction (d : List Char) (hd : d ≠ [])
    (hdig : ∀ c ∈ d, c.isDigit = true) :
    matchBracketSuffix (' ' :: '[' :: (d ++ [']'])) = some (digitsToNat d) := by
  obtain ⟨c0, cs0, rfl⟩ : ∃ c0 cs0, d = c0 :: cs0 := by
    cases d with
    | nil => exact absurd rfl hd
    | cons c0 cs0 => exact ⟨c0, cs0, rfl⟩
  obtain ⟨ht, hdr⟩ := takeWhile_digits_append (c0 :: cs0) hdig
  have hc0 : c0.isDigit = true := hdig c0 (by simp)
  unfold matchBracketSuffix
  rw [List.dropWhile_cons]
  simp only [show pyIsSpace ' ' = true from rfl, if_true]
  rw [List.dropWhile_cons]
  simp only [show pyIsSpace '[' = false from rfl, if_false, Bool.false_eq_true]
  rw [ht, hdr]
  rfl

/-- Skipping a leading space does not change whether (or where) the
bracket tail matches. -/
theorem matchBracketSuffix_cons_space (c : Char) (t : List Char)
    (hc : pyIsSpace c = true) :
    matchBracketSuffix (c :: t) = matchBracketSuffix t := by
  unfold matchBracketSuffix
  rw [List.dropWhile_cons, if_pos hc]

/-- The bracket tail cannot match anywhere inside a bracket-free character
run that is not entirely made of spaces. -/
theorem matchBracketSuffix_none_of_noBracket (l r : List Char)
    (hne : l ≠ []) (hnb : '[' ∉ l) (hns : l.all pyIsSpace = false) :
    matchBracketSuffix (l ++ r) = none := by
  induction l with
  | nil => exact absurd rfl hne
  | cons c cs ih =>
    by_cases hc : pyIsSpace c = true
    · have hcs_ne : cs ≠ [] := by
        intro h
        subst h
        simp [List.all_cons, hc] at hns
      have hcs_ns : cs.all pyIsSpace = false := by
        simpa [List.all_cons, hc] using hns
      have hcs_nb : '[' ∉ cs := fun h => hnb (List.mem_cons_of_mem _ h)
      rw [List.cons_append, matchBracketSuffix_cons_space c _ hc]
      exact ih hcs_ne hcs_nb hcs_ns
    · have hcb : c ≠ '[' := fun h => hnb (h ▸ List.mem_cons_self c cs)
      rw [List.cons_append]
      unfold matchBracketSuffix
      rw [List.dropWhile_cons, if_neg hc]
      split
      · next heq => exact absurd (List.head_eq_of_cons_eq heq.symm).symm hcb
      · rfl

/-- Scanning a bracket-free base (none of whose suffixes is entirely
spaces) followed by the bracket tail finds the match exactly at the
junction, with the base as the captured prefix. -/
theorem searchGroupPattern_append (d : List Char) (hd : d ≠ [])
    (hdig : ∀ c ∈ d, c.isDigit = true) :
    ∀ (l acc : List Char), '[' ∉ l →
    (∀ k, k < l.length → (l.drop k).all pyIsSpace = false) →
    searchGroupPattern acc (l ++ (' ' :: '[' :: (d ++ [']']))) =
      some (acc.reverse ++ l, digitsToNat d) := by
  intro l
  induction l with
  | nil =>
    intro acc _ _
    rw [List.nil_append]
    unfold searchGroupPattern
    rw [matchBracketSuffix_junction d hd hdig]
    simp
  | cons c cs ih =>
    intro acc hnb hns
    have hm := matchBracketSuffix_none_of_noBracket (c :: cs)
      (' ' :: '[' :: (d ++ [']'])) (by simp) hnb (hns 0 (by simp))
    rw [List.cons_append] at hm
    rw [List.cons_append]
    unfold searchGroupPattern
    rw [hm]
    have hr := ih (c :: acc) (fun h => hnb (List.mem_cons_of_mem _ h))
      (fun k hk => by
        have := hns (k + 1) (by simpa using Nat.succ_lt_succ hk)
        simpa [List.drop_succ_cons] using this)
    rw [hr]
    simp [List.reverse_cons, List.append_assoc]

/-- C10: any group label of the shape `base [digits]` (bracket-free base,
no all-space suffix of the base) is stripped by `parse_group` into the
base and the numeric occurrence — also when that text is a group's real,
undisambiguated name; consequently the listGroups-to-lookup round trip
breaks on a physical group actually named "G [1]": `get_groups` emits it
verbatim, but the lookup strips it to base "G" occurrence 1, which
resolves to no group at all. -/
theorem c10_bracket_suffix_stripping (p : String) (d : List Char)
    (h1 : '[' ∉ p.toList)
    (h2 : ∀ k, k < p.toList.length → (p.toList.drop k).all pyIsSpace = false)
    (h3 : d ≠ []) (h4 : ∀ c ∈ d, c.isDigit = true) :
    parse_group (p ++ " [" ++ String.mk d ++ "]") = (p, digitsToNat d)
    ∧ get_groups ["G [1]"] = ["G [1]"]
    ∧ parse_group "G [1]" = ("G", 1)
    ∧ resolve_group ["G [1]"] "G" 1 = none := by
  refine ⟨?_, by decide, by decide, by decide⟩
  have htl : (p ++ " [" ++ String.mk d ++ "]").toList =
      p.toList ++ (' ' :: '[' :: (d ++ [']'])) := by
    show (p ++ " [" ++ String.mk d ++ "]").data =
      p.data ++ (' ' :: '[' :: (d ++ [']']))
    simp [String.data_append, List.append_assoc]
  unfold parse_group
  rw [htl, searchGroupPattern_append d h3 h4 p.toList [] h1 h2]
  simp [string_mk_toList]

/-- C10 witness: the stripping theorem instantiated at base "G" and digit
run "1": the label "G [1]" parses to base "G", occurrence 1, and the
physical group actually named "G [1]" is no longer reachable. -/
theorem c10_bracket_suffix_stripping_witness :
    parse_group ("G" ++ " [" ++ String.mk ['1'] ++ "]") = ("G", digitsToNat ['1'])
    ∧ get_groups ["G [1]"] = ["G [1]"]
    ∧ parse_group "G [1]" = ("G", 1)
    ∧ resolve_group ["G [1]"] "G" 1 = none :=
  c10_bracket_suffix_stripping "G" ['1'] (by decide) (by decide) (by decide)
    (by decide)

end SignalBrowser
